import Mathlib

/-!
Verification of the mood-taxonomy cache and background file-processing pool
of the journiv-app backend.

The definitions below are a shallow embedding of
`app/services/mood_service.py` (class-level mood cache) and
`app/services/file_processing_service.py` (thread-pool lifecycle and job
admission).  Class-level / module-level mutable state is made explicit by
state passing; Python exceptions are modelled with `Except`; the Python
dict backing the cache is modelled as an association list with
replace-on-insert semantics.
-/

namespace Journiv

/-! ## Mood records and the taxonomy cache (`app/services/mood_service.py`) -/

/-- Modelled from the spec: the `MoodCategory` enum lives in
`app/models/enums.py`, which is not among the provided sources; the spec
fixes the closed category set as positive, negative, neutral, matching the
check constraint `category IN (positive, negative, neutral)` declared in
`app/models/mood.py`.  The member values of the enum are these strings. -/
def moodCategoryValues : List String := ["positive", "negative", "neutral"]

/-- A `Mood` row (`app/models/mood.py`): id, name, optional icon, category,
plus the `created_at` / `updated_at` fields of `BaseModel`.  Identifier and
timestamp types are abstracted to `Nat`; only the fields that
`_store_cache` / `_get_cached_moods` copy are modelled. -/
structure MoodRec where
  id : Nat
  name : String
  icon : Option String
  category : String
  createdAt : Nat
  updatedAt : Nat
deriving DecidableEq, Repr

/-- The per-record copy performed in `_store_cache` and `_get_cached_moods`:
a fresh `Mood(...)` constructed field by field from the source record. -/
def copyMood (m : MoodRec) : MoodRec :=
  { id := m.id
    name := m.name
    icon := m.icon
    category := m.category
    createdAt := m.createdAt
    updatedAt := m.updatedAt }

/-- Association-list lookup with Python dict semantics (`dict.get`). -/
def assocGet {β : Type} (c : List (String × β)) (k : String) : Option β :=
  match c with
  | [] => none
  | (k1, v) :: rest => if k1 = k then some v else assocGet rest k

/-- Association-list store with Python dict semantics
(`d[k] = v` replaces any existing binding for `k`). -/
def assocSet {β : Type} (c : List (String × β)) (k : String) (v : β) :
    List (String × β) :=
  match c with
  | [] => [(k, v)]
  | (k1, v1) :: rest =>
    if k1 = k then (k, v) :: rest else (k1, v1) :: assocSet rest k v

/-- The class-level `MoodService._mood_cache` dict, keys to mood lists. -/
abbrev MoodCache : Type := List (String × List MoodRec)

/-- `MoodService._cache_key`: `category or "__all__"` — Python falsiness
makes the empty string fall back to the sentinel as well. -/
def cacheKey (category : Option String) : String :=
  match category with
  | none => "__all__"
  | some s => if s = "" then "__all__" else s

/-- `MoodService.invalidate_mood_cache`: `cls._mood_cache.clear()`. -/
def invalidateMoodCache (_c : MoodCache) : MoodCache := []

/-- `MoodService._store_cache`: stores per-record copies under `key`. -/
def storeCache (c : MoodCache) (key : String) (moods : List MoodRec) :
    MoodCache :=
  assocSet c key (moods.map copyMood)

/-- `MoodService._get_cached_moods`: `cls._mood_cache.get(key)`; on a hit,
returns a fresh list of per-record copies, never the cached list itself. -/
def getCachedMoods (c : MoodCache) (key : String) : Option (List MoodRec) :=
  match assocGet c key with
  | none => none
  | some cached => some (cached.map copyMood)

/-- Errors raised by the storage collaborator (`SQLAlchemyError`). -/
inductive StorageError
  | sqlError (msg : String)
deriving DecidableEq, Repr

/-- Exceptions that can leave the mood-service query paths:
`MoodNotFoundError` from category validation, or a storage error
propagating out of `session.exec`. -/
inductive MoodSvcError
  | moodNotFound (msg : String)
  | storage (e : StorageError)
deriving DecidableEq, Repr

/-- Python `str.lower`, applied character by character; it agrees with
the library lowercase map on the ASCII alphabet the category values are
drawn from. -/
def lowerStr (s : String) : String := String.mk (s.data.map Char.toLower)

/-- `MoodService._normalize_category`: `MoodCategory(category.lower()).value`,
which succeeds exactly when the lowercased input is a member value of the
enum and otherwise raises `MoodNotFoundError`. -/
def normalizeCategory (category : String) : Except MoodSvcError String :=
  let lowered := lowerStr category
  if lowered ∈ moodCategoryValues then .ok lowered
  else .error (.moodNotFound ("Invalid mood category " ++ category))

/-- `MoodService.get_all_moods`: look-up-or-load on the sentinel key.
`queryAll` is the outcome of `session.exec(select(Mood)...)`; when it
raises, the exception propagates before `_store_cache` runs. -/
def getAllMoods (c : MoodCache) (queryAll : Except StorageError (List MoodRec)) :
    Except MoodSvcError (List MoodRec) × MoodCache :=
  let key := cacheKey none
  match getCachedMoods c key with
  | some cached => (.ok cached, c)
  | none =>
    match queryAll with
    | .error e => (.error (.storage e), c)
    | .ok moods => (.ok moods, storeCache c key moods)

/-- `MoodService.get_moods_by_category`: normalize, derive the key,
look-up-or-load.  `queryByCat` is the outcome of the filtered select for
the normalized category. -/
def getMoodsByCategory (c : MoodCache) (category : String)
    (queryByCat : String → Except StorageError (List MoodRec)) :
    Except MoodSvcError (List MoodRec) × MoodCache :=
  match normalizeCategory category with
  | .error e => (.error e, c)
  | .ok normalized =>
    let key := cacheKey (some normalized)
    match getCachedMoods c key with
    | some cached => (.ok cached, c)
    | none =>
      match queryByCat normalized with
      | .error e => (.error (.storage e), c)
      | .ok moods => (.ok moods, storeCache c key moods)

/-! ## Object-identity model of the cache, for copy isolation

Python records are mutable objects reached through references.  To state
that `_get_cached_moods` returns copies sharing no mutable structure with
the cached snapshot, the same two cache functions are re-embedded over an
explicit heap: addresses name `Mood` objects, the cache maps keys to lists
of addresses, and each `Mood(...)` construction allocates a fresh address
holding the field-by-field copy. -/

/-- Heap-level state: object heap, allocation counter, and the
`_mood_cache` dict holding object references. -/
structure MoodHeap where
  heap : Nat → MoodRec
  nextAddr : Nat
  cache : List (String × List Nat)

/-- One `Mood(...)` construction: allocate the field-by-field copy of `v`
at the next free address. -/
def allocStep (s : MoodHeap) (v : MoodRec) : MoodHeap :=
  { heap := fun b => if b = s.nextAddr then copyMood v else s.heap b
    nextAddr := s.nextAddr + 1
    cache := s.cache }

/-- Allocate one object per value, at consecutive fresh addresses (the
list comprehension building fresh copies). -/
def allocCopies (s : MoodHeap) (vals : List MoodRec) : List Nat × MoodHeap :=
  match vals with
  | [] => ([], s)
  | v :: rest =>
    (s.nextAddr :: (allocCopies (allocStep s v) rest).1,
     (allocCopies (allocStep s v) rest).2)

/-- `MoodService._get_cached_moods` at heap level: on a hit, read each
cached object and return freshly allocated copies. -/
def getCachedMoodsH (s : MoodHeap) (key : String) :
    Option (List Nat) × MoodHeap :=
  match assocGet s.cache key with
  | none => (none, s)
  | some addrs =>
    (some (allocCopies s (addrs.map s.heap)).1,
     (allocCopies s (addrs.map s.heap)).2)

/-- `MoodService._store_cache` at heap level: allocate copies of the given
objects and bind the key to the fresh references. -/
def storeCacheH (s : MoodHeap) (key : String) (objAddrs : List Nat) :
    MoodHeap :=
  let fresh := (allocCopies s (objAddrs.map s.heap)).1
  let s1 := (allocCopies s (objAddrs.map s.heap)).2
  { heap := s1.heap
    nextAddr := s1.nextAddr
    cache := assocSet s1.cache key fresh }

/-- Caller-side mutation of the object at address `a` (attribute
assignment on a returned `Mood`). -/
def mutateMood (s : MoodHeap) (a : Nat) (v : MoodRec) : MoodHeap :=
  { heap := fun b => if b = a then v else s.heap b
    nextAddr := s.nextAddr
    cache := s.cache }

/-- The value content of the cached snapshot under `key`. -/
def cachedSnapshot (s : MoodHeap) (key : String) : Option (List MoodRec) :=
  match assocGet s.cache key with
  | none => none
  | some addrs => some (addrs.map s.heap)

/-- The value content a caller observes from one `_get_cached_moods`
call: the records at the returned references. -/
def getValuesH (s : MoodHeap) (key : String) : Option (List MoodRec) :=
  match (getCachedMoodsH s key).1 with
  | none => none
  | some fresh => some (fresh.map (getCachedMoodsH s key).2.heap)

/-! ## Background file-processing pool
(`app/services/file_processing_service.py`) -/

/-- A submitted job descriptor: media id, file path, user id. -/
abbrev JobDesc : Type := String × String × String

/-- The module-level globals `_processing_executor` and
`_is_shutting_down`.  The executor is modelled by its queue of submitted,
not-yet-drained jobs; `none` is Python `None`. -/
structure PoolGlobals where
  processingExecutor : Option (List JobDesc)
  isShuttingDown : Bool
deriving DecidableEq, Repr

/-- The module-level state at import time. -/
def initialPoolGlobals : PoolGlobals :=
  { processingExecutor := none, isShuttingDown := false }

/-- Exceptions leaving `process_uploaded_file_async`: `ValueError` from
validation or `RuntimeError` when the pool is unavailable. -/
inductive SubmitError
  | valueError (msg : String)
  | runtimeError (msg : String)
deriving DecidableEq, Repr

/-- `_get_processing_executor`: lazily create the executor when it is
`None` and no shutdown is in progress; raise `RuntimeError` when it is
still `None` afterwards; otherwise return (the globals now holding) it. -/
def getProcessingExecutor (g : PoolGlobals) : Except SubmitError PoolGlobals :=
  let g1 :=
    if g.processingExecutor.isNone && !g.isShuttingDown then
      { g with processingExecutor := some [] }
    else g
  match g1.processingExecutor with
  | none =>
    .error (.runtimeError "Thread pool executor is not available (shutting down)")
  | some _ => .ok g1

/-- `_shutdown_executor`: when an executor exists and no shutdown is in
progress, set the flag, shut the executor down waiting for queued jobs,
clear the global and reset the flag; otherwise do nothing.  The function
runs to completion, so the post-state has both globals reset. -/
def shutdownExecutor (g : PoolGlobals) : PoolGlobals :=
  if g.processingExecutor.isSome && !g.isShuttingDown then
    { processingExecutor := none, isShuttingDown := false }
  else g

/-- `FileProcessingService.shutdown_processing`: calls
`_shutdown_executor`; the `wait` argument only selects a log message. -/
def shutdownProcessing (g : PoolGlobals) (_wait : Bool) : PoolGlobals :=
  shutdownExecutor g

/-- Python `str.strip()`: drop whitespace from both ends, character by
character. -/
def stripStr (s : String) : String :=
  String.mk
    (((s.data.dropWhile Char.isWhitespace).reverse.dropWhile
        Char.isWhitespace).reverse)

/-- `FileProcessingService.process_uploaded_file_async`.  `uuidOk` is the
acceptance predicate of the standard-library `uuid.UUID` constructor
(an external collaborator, abstracted as an oracle).  Validation runs in
source order before any executor access; on success the job is submitted
to the executor queue.  The surrounding try/except logs and re-raises, so
it does not change the result. -/
def processUploadedFileAsync (uuidOk : String → Bool) (g : PoolGlobals)
    (mediaId filePath userId : String) : Except SubmitError PoolGlobals :=
  if mediaId = "" || filePath = "" || userId = "" then
    .error (.valueError "media_id, file_path, and user_id are required")
  else if !(uuidOk mediaId && uuidOk userId) then
    .error (.valueError "Invalid UUID format")
  else if stripStr filePath = "" then
    .error (.valueError "file_path must be a non-empty string")
  else
    match getProcessingExecutor g with
    | .error e => .error e
    | .ok g1 =>
      .ok { g1 with
            processingExecutor :=
              g1.processingExecutor.map (fun q => q ++ [(mediaId, filePath, userId)]) }

/-- Exceptions a worker body can see from
`media_service.process_uploaded_file`: `MediaNotFoundError`, or any other
`Exception` subclass raised by the processing step. -/
inductive PyExc
  | mediaNotFound (msg : String)
  | otherExc (msg : String)
deriving DecidableEq, Repr

/-- Whether an exception is an instance of `MediaNotFoundError`. -/
def isMediaNotFound : PyExc → Bool
  | .mediaNotFound _ => true
  | .otherExc _ => false

/-- Whether an exception is an instance of `Exception`: every modelled
application exception is. -/
def isException : PyExc → Bool := fun _ => true

/-- Observable outcome of one worker-body run: whether the thread-local
session was closed, and the exception leaving the body, if any. -/
structure WorkerRun where
  sessionClosed : Bool
  raised : Option PyExc
deriving DecidableEq, Repr

/-- `FileProcessingService._process_uploaded_file_sync`: open a
thread-local session, run the processing step (whose outcome is the
argument), handle `MediaNotFoundError` then `Exception` in order (both
handlers only log), and close the session in `finally`. -/
def processUploadedFileSync (outcome : Except PyExc Unit) : WorkerRun :=
  let afterHandlers : WorkerRun :=
    match outcome with
    | .ok _ => { sessionClosed := false, raised := none }
    | .error e =>
      if isMediaNotFound e then { sessionClosed := false, raised := none }
      else if isException e then { sessionClosed := false, raised := none }
      else { sessionClosed := false, raised := some e }
  { afterHandlers with sessionClosed := true }

/-- Status report of `get_processing_status`. -/
structure PoolStatus where
  isShuttingDown : Bool
  maxWorkers : Option Nat
  pendingTasks : Option Nat
  shutdownFlag : Option Bool
  errorMsg : Option String
deriving DecidableEq, Repr

/-- `FileProcessingService.get_processing_status`: calls
`_get_processing_executor` (creating the pool when absent and not
shutting down) and reports its internals; on failure, reports the error
and the shutdown flag only. -/
def getProcessingStatus (g : PoolGlobals) : PoolStatus × PoolGlobals :=
  match getProcessingExecutor g with
  | .error _ =>
    ({ isShuttingDown := g.isShuttingDown
       maxWorkers := none
       pendingTasks := none
       shutdownFlag := none
       errorMsg := some "Thread pool executor is not available (shutting down)" }, g)
  | .ok g1 =>
    ({ isShuttingDown := g1.isShuttingDown
       maxWorkers := some 4
       pendingTasks := some ((g1.processingExecutor.getD []).length)
       shutdownFlag := some false
       errorMsg := none }, g1)

/-! ## Invariants and concrete states used in the proofs -/

/-- Every key present in the mood cache is the sentinel or a normalized
category value. -/
def goodCacheKeys (c : MoodCache) : Prop :=
  ∀ p ∈ c, p.1 = "__all__" ∨ p.1 ∈ moodCategoryValues

/-- A concrete mood record, for instantiating the general theorems. -/
def calmMood : MoodRec :=
  { id := 7
    name := "calm"
    icon := some "leaf"
    category := "positive"
    createdAt := 10
    updatedAt := 20 }

/-- A second concrete record, used as a caller-side overwrite value. -/
def angryMood : MoodRec :=
  { id := 7
    name := "angry"
    icon := none
    category := "negative"
    createdAt := 10
    updatedAt := 99 }

/-- A concrete heap state: one mood object at address 0, cached under the
sentinel key, next free address 1. -/
def heapStateW : MoodHeap :=
  { heap := fun _ => calmMood
    nextAddr := 1
    cache := [("__all__", [0])] }

/-- The nil UUID in canonical hyphenated form; accepted by the
standard-library UUID constructor. -/
def nilUUID : String := "00000000-0000-0000-0000-000000000000"

/-- A concrete oracle for the standard-library UUID acceptance predicate,
fixed on the inputs the concrete instantiations use: the canonical nil
UUID is accepted (as `uuid.UUID` does) and everything else rejected. -/
def uuidOkNil : String → Bool := fun s => s = nilUUID

/-- A pool state holding a created executor with an empty queue and no
shutdown in progress (the running state). -/
def runningPoolGlobals : PoolGlobals :=
  { processingExecutor := some [], isShuttingDown := false }

/-- The transient state observed while `_shutdown_executor` is between
setting the flag and finishing: executor already cleared, flag still
set (the draining state). -/
def drainingPoolGlobals : PoolGlobals :=
  { processingExecutor := none, isShuttingDown := true }

/-! ## Theorems -/

/-- Claim C2: for every outcome of the processing step — success,
`MediaNotFoundError`, or any other exception — the worker body
`_process_uploaded_file_sync` lets no exception propagate out, and the
thread-local session is closed before returning, so the worker thread
survives to process subsequent jobs. -/
theorem worker_body_contains_all_faults (outcome : Except PyExc Unit) :
    (processUploadedFileSync outcome).raised = none ∧
    (processUploadedFileSync outcome).sessionClosed = true := by
  cases outcome with
  | ok u => exact ⟨rfl, rfl⟩
  | error e => cases e <;> exact ⟨rfl, rfl⟩

/-- Claim C6: `invalidate_mood_cache` is idempotent — clearing twice
leaves the same (empty) cache as clearing once — and after it runs, a
cache read on every key returns absent. -/
theorem invalidate_mood_cache_idempotent (c : MoodCache) :
    invalidateMoodCache (invalidateMoodCache c) = invalidateMoodCache c ∧
    ∀ k, getCachedMoods (invalidateMoodCache c) k = none := by
  exact ⟨rfl, fun k => rfl⟩

/-- Claim C8: calling `shutdown_processing` when the executor global is
already absent is a no-op: the pool state is returned unchanged and no
error is raised (the function is total in the model). -/
theorem shutdown_processing_idempotent (g : PoolGlobals) (wait : Bool)
    (h : g.processingExecutor = none) :
    shutdownProcessing g wait = g := by
  simp [shutdownProcessing, shutdownExecutor, h]

/-- Witness for C8: the initial (already torn down) state is left
unchanged by a second shutdown call. -/
theorem shutdown_processing_idempotent_witness :
    shutdownProcessing initialPoolGlobals true = initialPoolGlobals :=
  shutdown_processing_idempotent initialPoolGlobals true rfl

/-- Claim C9: `get_processing_status` is not a pure observer — called
with the pool singleton not yet created and no shutdown in progress, it
creates the worker pool as a side effect, leaving the executor present
with an empty queue although no job was ever submitted. -/
theorem get_processing_status_creates_pool (g : PoolGlobals)
    (h1 : g.processingExecutor = none) (h2 : g.isShuttingDown = false) :
    (getProcessingStatus g).2.processingExecutor = some [] ∧
    (getProcessingStatus g).2.isShuttingDown = false := by
  simp [getProcessingStatus, getProcessingExecutor, h1, h2]

/-- Witness for C9: from the import-time state, a status query alone
creates the pool. -/
theorem get_processing_status_creates_pool_witness :
    (getProcessingStatus initialPoolGlobals).2.processingExecutor = some [] ∧
    (getProcessingStatus initialPoolGlobals).2.isShuttingDown = false :=
  get_processing_status_creates_pool initialPoolGlobals rfl rfl

/-- Claim C5: on the load-on-miss path of `get_all_moods` and of
`get_moods_by_category`, a storage-query error propagates to the caller
unmodified and the cache is left exactly as it was — in particular no
entry is stored for the requested key. -/
theorem load_miss_storage_error_propagates (c : MoodCache) (e : StorageError)
    (cat n : String)
    (h1 : getCachedMoods c (cacheKey none) = none)
    (hn : normalizeCategory cat = .ok n)
    (h2 : getCachedMoods c (cacheKey (some n)) = none) :
    getAllMoods c (.error e) = (.error (.storage e), c) ∧
    getMoodsByCategory c cat (fun _ => .error e) = (.error (.storage e), c) := by
  constructor
  · simp [getAllMoods, h1]
  · simp [getMoodsByCategory, hn, h2]

/-- Witness for C5: empty cache, category positive, a concrete SQL
error. -/
theorem load_miss_storage_error_propagates_witness :
    getAllMoods [] (.error (.sqlError "db down")) =
      (.error (.storage (.sqlError "db down")), []) ∧
    getMoodsByCategory [] "positive" (fun _ => .error (.sqlError "db down")) =
      (.error (.storage (.sqlError "db down")), []) :=
  load_miss_storage_error_propagates [] (.sqlError "db down") "positive"
    "positive" rfl (by simp [normalizeCategory, moodCategoryValues]; rfl) rfl

/-- Claim C3: whenever any descriptor field is empty or an identifier is
rejected by the UUID constructor, `process_uploaded_file_async` fails
synchronously with a `ValueError`; since every validation check runs
before the executor is touched, an error result means the job was never
enqueued and the processing step never runs for that descriptor. -/
theorem submit_validation_rejects (uuidOk : String → Bool) (g : PoolGlobals)
    (mediaId filePath userId : String)
    (h : mediaId = "" ∨ filePath = "" ∨ userId = "" ∨
         uuidOk mediaId = false ∨ uuidOk userId = false) :
    ∃ msg, processUploadedFileAsync uuidOk g mediaId filePath userId =
      .error (.valueError msg) := by
  unfold processUploadedFileAsync
  by_cases hc1 : (mediaId = "" || filePath = "" || userId = "") = true
  · rw [if_pos hc1]
    exact ⟨"media_id, file_path, and user_id are required", rfl⟩
  · rw [if_neg hc1]
    simp only [Bool.or_eq_true, decide_eq_true_eq, not_or] at hc1
    obtain ⟨⟨hm, hf⟩, hu⟩ := hc1
    have hc2 : (!(uuidOk mediaId && uuidOk userId)) = true := by
      rcases h with h | h | h | h | h
      · exact absurd h hm
      · exact absurd h hf
      · exact absurd h hu
      · simp [h]
      · simp [h]
    rw [if_pos hc2]
    exact ⟨"Invalid UUID format", rfl⟩

/-- Witness for C3: a malformed media id (empty string is not a UUID)
is rejected whatever the rest of the descriptor is. -/
theorem submit_validation_rejects_witness :
    ∃ msg, processUploadedFileAsync uuidOkNil runningPoolGlobals
      "not-a-uuid" "photo.jpg" nilUUID = .error (.valueError msg) :=
  submit_validation_rejects uuidOkNil runningPoolGlobals
    "not-a-uuid" "photo.jpg" nilUUID (Or.inr (Or.inr (Or.inr (Or.inl rfl))))

/-- Helper: a valid normalized category is a non-empty string, so the
key derivation is the identity on it. -/
theorem cacheKey_of_valid_category (v : String) (h : v ∈ moodCategoryValues) :
    cacheKey (some v) = v := by
  simp only [moodCategoryValues, List.mem_cons, List.not_mem_nil, or_false] at h
  rcases h with h | h | h <;> subst h <;> rfl

/-- Helper: a successful normalization lands in the category value set. -/
theorem normalizeCategory_ok_mem (cat n : String)
    (h : normalizeCategory cat = .ok n) : n ∈ moodCategoryValues := by
  unfold normalizeCategory at h
  by_cases hm : lowerStr cat ∈ moodCategoryValues
  · simp only [hm, if_pos] at h
    cases h
    exact hm
  · simp [hm] at h

/-- Claim C7: any two category inputs with the same lowercase form
normalize to the same valid value, which is its own cache key, so they
address the same cache slot; an input that does not normalize raises
`MoodNotFoundError` from `get_moods_by_category` and the cache is left
untouched. -/
theorem category_normalization_single_slot (c1 c2 v : String)
    (cache : MoodCache) (cat : String)
    (q : String → Except StorageError (List MoodRec)) (e : MoodSvcError)
    (h1 : normalizeCategory c1 = .ok v) (h2 : lowerStr c2 = lowerStr c1)
    (he : normalizeCategory cat = .error e) :
    normalizeCategory c2 = .ok v ∧ cacheKey (some v) = v ∧
    getMoodsByCategory cache cat q = (.error e, cache) := by
  have hm : lowerStr c1 ∈ moodCategoryValues := by
    by_cases hm : lowerStr c1 ∈ moodCategoryValues
    · exact hm
    · simp [normalizeCategory, hm] at h1
  have hv : v = lowerStr c1 := by
    simp only [normalizeCategory, hm, if_pos] at h1
    cases h1
    rfl
  refine ⟨?_, ?_, ?_⟩
  · rw [hv]
    simp [normalizeCategory, h2, hm]
  · exact cacheKey_of_valid_category v (hv ▸ hm)
  · simp [getMoodsByCategory, he]

/-- Witness for C7: the inputs Positive and positive normalize to the
same key positive, and the invalid input Bogus errors without touching
an empty cache. -/
theorem category_normalization_single_slot_witness :
    normalizeCategory "Positive" = .ok "positive" ∧
    cacheKey (some "positive") = "positive" ∧
    getMoodsByCategory [] "Bogus" (fun _ => .ok []) =
      (.error (.moodNotFound ("Invalid mood category " ++ "Bogus")), []) :=
  category_normalization_single_slot "positive" "Positive" "positive"
    [] "Bogus" (fun _ => .ok [])
    (.moodNotFound ("Invalid mood category " ++ "Bogus"))
    (by rfl) (by decide) (by rfl)

/-- Helper: membership after a dict store comes from the new key or from
the previous entries. -/
theorem mem_assocSet {β : Type} (c : List (String × β)) (k : String) (v : β)
    (p : String × β) (hp : p ∈ assocSet c k v) : p.1 = k ∨ p ∈ c := by
  induction c with
  | nil =>
    simp only [assocSet, List.mem_singleton] at hp
    left
    rw [hp]
  | cons hd tl ih =>
    rcases hd with ⟨k1, v1⟩
    by_cases hk : k1 = k
    · simp only [assocSet, hk, if_pos, List.mem_cons] at hp
      rcases hp with hp | hp
      · left; rw [hp]
      · right; exact List.mem_cons_of_mem _ hp
    · simp only [assocSet, hk, if_neg, ite_false, List.mem_cons] at hp
      rcases hp with hp | hp
      · right; rw [hp]; exact List.mem_cons_self _ _
      · rcases ih hp with h | h
        · left; exact h
        · right; exact List.mem_cons_of_mem _ h

/-- Claim C10: every key ever stored in the mood cache is the sentinel
key or a normalized category value, the sentinel collides with no
category value, and the invariant is preserved by `get_all_moods`,
`get_moods_by_category` and `invalidate_mood_cache`. -/
theorem cache_key_domain_invariant (c : MoodCache)
    (q : Except StorageError (List MoodRec)) (cat : String)
    (qf : String → Except StorageError (List MoodRec))
    (hg : goodCacheKeys c) :
    "__all__" ∉ moodCategoryValues ∧
    goodCacheKeys (getAllMoods c q).2 ∧
    goodCacheKeys (getMoodsByCategory c cat qf).2 ∧
    goodCacheKeys (invalidateMoodCache c) := by
  refine ⟨by decide, ?_, ?_, ?_⟩
  · cases hcache : getCachedMoods c (cacheKey none) with
    | some cached => simpa [getAllMoods, hcache] using hg
    | none =>
      cases q with
      | error e => simpa [getAllMoods, hcache] using hg
      | ok moods =>
        simp only [getAllMoods, hcache]
        intro p hp
        rcases mem_assocSet c (cacheKey none) (moods.map copyMood) p hp with h | h
        · left; exact h
        · exact hg p h
  · cases hn : normalizeCategory cat with
    | error e => simpa [getMoodsByCategory, hn] using hg
    | ok n =>
      have hmem := normalizeCategory_ok_mem cat n hn
      have hkey := cacheKey_of_valid_category n hmem
      cases hcache : getCachedMoods c (cacheKey (some n)) with
      | some cached => simpa [getMoodsByCategory, hn, hcache] using hg
      | none =>
        cases hq : qf n with
        | error e => simpa [getMoodsByCategory, hn, hcache, hq] using hg
        | ok moods =>
          simp only [getMoodsByCategory, hn, hcache, hq]
          intro p hp
          rcases mem_assocSet c (cacheKey (some n)) (moods.map copyMood) p hp
            with h | h
          · right; rw [h, hkey]; exact hmem
          · exact hg p h
  · intro p hp
    simp [invalidateMoodCache] at hp

/-- Witness for C10: starting from a cache satisfying the invariant, one
all-moods load, one category load and one invalidation keep it. -/
theorem cache_key_domain_invariant_witness :
    "__all__" ∉ moodCategoryValues ∧
    goodCacheKeys (getAllMoods [] (.ok [calmMood])).2 ∧
    goodCacheKeys (getMoodsByCategory [] "Positive" (fun _ => .ok [calmMood])).2 ∧
    goodCacheKeys (invalidateMoodCache []) :=
  cache_key_domain_invariant [] (.ok [calmMood]) "Positive"
    (fun _ => .ok [calmMood]) (by intro p hp; simp at hp)

/-- Counterexample to claim C1 as stated: after `shutdown_processing`
with wait has completed on a running pool, the next submit with a valid
descriptor does not fail with a pool-unavailable error — it succeeds and
enqueues the job, because `_shutdown_executor` resets both globals and
`_get_processing_executor` then lazily constructs a fresh pool. -/
theorem submit_after_completed_shutdown_enqueues :
    processUploadedFileAsync uuidOkNil
      (shutdownProcessing runningPoolGlobals true) nilUUID "photo.jpg" nilUUID
    = .ok { processingExecutor := some [(nilUUID, "photo.jpg", nilUUID)],
            isShuttingDown := false } := by
  rfl

/-- Claim C1 as amended: while a shutdown is in progress — the flag set
and the executor already cleared — a valid submit fails fast with the
pool-unavailable `RuntimeError` and nothing is enqueued; but a completed
`shutdown_processing(wait)` on a running pool resets the globals to the
import-time state, so the terminated state coincides with the
never-created one and the next valid submit constructs a fresh pool and
enqueues its job instead of failing. -/
theorem shutdown_terminated_state_not_absorbing (uuidOk : String → Bool)
    (g g2 : PoolGlobals) (m f u : String) (q : List JobDesc)
    (hdrain : g.processingExecutor = none) (hflag : g.isShuttingDown = true)
    (hm : m ≠ "") (hu : u ≠ "") (hf : stripStr f ≠ "")
    (hmo : uuidOk m = true) (huo : uuidOk u = true)
    (hrun : g2.processingExecutor = some q) (hrf : g2.isShuttingDown = false) :
    (∃ msg, processUploadedFileAsync uuidOk g m f u =
       .error (.runtimeError msg)) ∧
    shutdownProcessing g2 true = initialPoolGlobals ∧
    processUploadedFileAsync uuidOk initialPoolGlobals m f u =
      .ok { processingExecutor := some [(m, f, u)], isShuttingDown := false } := by
  have hfne : f ≠ "" := by
    intro hc
    rw [hc] at hf
    exact hf rfl
  refine ⟨?_, ?_, ?_⟩
  · refine ⟨"Thread pool executor is not available (shutting down)", ?_⟩
    simp [processUploadedFileAsync, hm, hu, hfne, hf, hmo, huo,
      getProcessingExecutor, hdrain, hflag]
  · simp [shutdownProcessing, shutdownExecutor, hrun, hrf,
      initialPoolGlobals]
  · simp [processUploadedFileAsync, hm, hu, hfne, hf, hmo, huo,
      getProcessingExecutor, initialPoolGlobals]

/-- Witness for the amended C1, at a draining state, a running state and
the nil-UUID descriptor. -/
theorem shutdown_terminated_state_not_absorbing_witness :
    (∃ msg, processUploadedFileAsync uuidOkNil drainingPoolGlobals
       nilUUID "photo.jpg" nilUUID = .error (.runtimeError msg)) ∧
    shutdownProcessing runningPoolGlobals true = initialPoolGlobals ∧
    processUploadedFileAsync uuidOkNil initialPoolGlobals
      nilUUID "photo.jpg" nilUUID =
      .ok { processingExecutor := some [(nilUUID, "photo.jpg", nilUUID)],
            isShuttingDown := false } :=
  shutdown_terminated_state_not_absorbing uuidOkNil drainingPoolGlobals
    runningPoolGlobals nilUUID "photo.jpg" nilUUID []
    rfl rfl (by decide) (by decide) (by decide) (by decide) (by decide)
    rfl rfl

/-- Helper: allocation leaves the cache alone, bumps the allocation
counter by the number of values, preserves the heap below the old
counter, returns only fresh addresses, and the returned addresses hold
the copies of the values. -/
theorem allocCopies_spec (vals : List MoodRec) (s : MoodHeap) :
    (allocCopies s vals).2.cache = s.cache ∧
    (allocCopies s vals).2.nextAddr = s.nextAddr + vals.length ∧
    (∀ b, b < s.nextAddr → (allocCopies s vals).2.heap b = s.heap b) ∧
    (∀ a ∈ (allocCopies s vals).1, s.nextAddr ≤ a) ∧
    (allocCopies s vals).1.map (allocCopies s vals).2.heap =
      vals.map copyMood := by
  induction vals generalizing s with
  | nil =>
    exact ⟨rfl, rfl, fun b _ => rfl, by simp [allocCopies], rfl⟩
  | cons v rest ih =>
    obtain ⟨ihc, ihn, ihh, ihlb, ihmap⟩ := ih (allocStep s v)
    have hsn : (allocStep s v).nextAddr = s.nextAddr + 1 := rfl
    have hsc : (allocStep s v).cache = s.cache := rfl
    refine ⟨?_, ?_, ?_, ?_, ?_⟩
    · show (allocCopies (allocStep s v) rest).2.cache = s.cache
      rw [ihc, hsc]
    · show (allocCopies (allocStep s v) rest).2.nextAddr =
        s.nextAddr + (rest.length + 1)
      rw [ihn, hsn]
      omega
    · intro b hb
      show (allocCopies (allocStep s v) rest).2.heap b = s.heap b
      rw [ihh b (by omega)]
      show (if b = s.nextAddr then copyMood v else s.heap b) = s.heap b
      rw [if_neg (by omega)]
    · intro a ha
      rcases List.mem_cons.mp ha with h | h
      · omega
      · have := ihlb a h
        omega
    · show ((s.nextAddr :: (allocCopies (allocStep s v) rest).1).map
          (allocCopies (allocStep s v) rest).2.heap) =
        copyMood v :: rest.map copyMood
      rw [List.map_cons, ihmap,
        ihh s.nextAddr (by omega)]
      show (if s.nextAddr = s.nextAddr then copyMood v else s.heap s.nextAddr)
          :: rest.map copyMood = copyMood v :: rest.map copyMood
      rw [if_pos rfl]

/-- Helper: the values a caller reads from one get call are the copies of
the cached snapshot. -/
theorem getValuesH_eq_snapshot (s : MoodHeap) (key : String) :
    getValuesH s key =
      Option.map (fun l => l.map copyMood) (cachedSnapshot s key) := by
  cases h : assocGet s.cache key with
  | none => simp [getValuesH, getCachedMoodsH, cachedSnapshot, h]
  | some addrs =>
    obtain ⟨-, -, -, -, hmap⟩ := allocCopies_spec (addrs.map s.heap) s
    simp [getValuesH, getCachedMoodsH, cachedSnapshot, h, hmap]

/-- Claim C4: a cache read returns copies sharing no mutable structure
with the cached snapshot — overwriting any record object returned by one
`_get_cached_moods` call changes neither the cached snapshot under that
key nor the values a second get call on the same key returns. -/
theorem get_cached_moods_copy_isolation (s : MoodHeap) (key : String)
    (as0 : List Nat) (a : Nat) (v : MoodRec)
    (hk : assocGet s.cache key = some as0)
    (hb : ∀ b ∈ as0, b < s.nextAddr)
    (ha : a ∈ (getCachedMoodsH s key).1.getD []) :
    cachedSnapshot (mutateMood (getCachedMoodsH s key).2 a v) key =
      cachedSnapshot (getCachedMoodsH s key).2 key ∧
    getValuesH (mutateMood (getCachedMoodsH s key).2 a v) key =
      getValuesH (getCachedMoodsH s key).2 key := by
  obtain ⟨hc, hn, hh, hlb, hmap⟩ := allocCopies_spec (as0.map s.heap) s
  have hget1 : (getCachedMoodsH s key).1 =
      some (allocCopies s (as0.map s.heap)).1 := by
    simp [getCachedMoodsH, hk]
  have hget2 : (getCachedMoodsH s key).2 =
      (allocCopies s (as0.map s.heap)).2 := by
    simp [getCachedMoodsH, hk]
  rw [hget1] at ha
  have hfresh : s.nextAddr ≤ a := hlb a (by simpa using ha)
  rw [hget2]
  have hcache2 :
      (mutateMood (allocCopies s (as0.map s.heap)).2 a v).cache =
        (allocCopies s (as0.map s.heap)).2.cache := rfl
  have hlook : assocGet (allocCopies s (as0.map s.heap)).2.cache key =
      some as0 := by
    rw [hc]; exact hk
  have hpres : ∀ b ∈ as0,
      (mutateMood (allocCopies s (as0.map s.heap)).2 a v).heap b =
        (allocCopies s (as0.map s.heap)).2.heap b := by
    intro b hbmem
    have hblt : b < s.nextAddr := hb b hbmem
    show (if b = a then v else (allocCopies s (as0.map s.heap)).2.heap b) =
      (allocCopies s (as0.map s.heap)).2.heap b
    rw [if_neg (by omega)]
  have hsnap :
      cachedSnapshot (mutateMood (allocCopies s (as0.map s.heap)).2 a v) key =
        cachedSnapshot (allocCopies s (as0.map s.heap)).2 key := by
    unfold cachedSnapshot
    rw [hcache2, hlook]
    have : as0.map
        (mutateMood (allocCopies s (as0.map s.heap)).2 a v).heap =
        as0.map (allocCopies s (as0.map s.heap)).2.heap := by
      apply List.map_congr_left
      intro b hbmem
      exact hpres b hbmem
    simp only [this]
  refine ⟨hsnap, ?_⟩
  rw [getValuesH_eq_snapshot, getValuesH_eq_snapshot, hsnap]

/-- Witness for C4: one record cached under the sentinel key; the copy
returned at address 1 is overwritten and both observations are
unchanged. -/
theorem get_cached_moods_copy_isolation_witness :
    cachedSnapshot
        (mutateMood (getCachedMoodsH heapStateW "__all__").2 1 angryMood)
        "__all__" =
      cachedSnapshot (getCachedMoodsH heapStateW "__all__").2 "__all__" ∧
    getValuesH
        (mutateMood (getCachedMoodsH heapStateW "__all__").2 1 angryMood)
        "__all__" =
      getValuesH (getCachedMoodsH heapStateW "__all__").2 "__all__" :=
  get_cached_moods_copy_isolation heapStateW "__all__" [0] 1 angryMood
    rfl (by decide) (by decide)

end Journiv
